import Mathlib

/-!
Verification of the judging engine of the `snowchains` repository.

The data model and operations below are shallow embeddings of the Rust
sources `src/judge.rs` and `src/judging/simple.rs`.  Machine integers
(`u64` millisecond counts, nanosecond counts) are modelled as `Nat`;
`std::time::Duration` is modelled as a total nanosecond count;
`std::process::ExitStatus` is modelled by its success bit together with
its display string; fallible operations return `Except`.
-/

/-- Model of `std::process::ExitStatus`: the success bit consulted by
`status.success()` plus the display string produced by its `Display`
implementation (an environment-provided value). -/
structure ExitStatus where
  success : Bool
  display : String
deriving DecidableEq, Repr

/-- Model of a test case (`testcase::Case` / `testsuite::SimpleCase` as consumed
through `case.into()` / `case.values()`): input text, expected text (empty
means "unchecked"), and an optional time limit in milliseconds (`u64`). -/
structure Case where
  input : String
  expected : String
  timelimit : Option Nat
deriving DecidableEq, Repr

/-- The raw observable behaviour of one spawned child process: the exit
status returned by `child.wait()`, the elapsed `Duration` at that point
(as `as_secs` and `subsec_nanos`), and the captured stdout/stderr text. -/
structure RawExecution where
  status : ExitStatus
  elapsedSecs : Nat
  subsecNanos : Nat
  stdout : String
  stderr : String
deriving DecidableEq, Repr

/-- `src/judge.rs` `JudgeOutput`: the four verdict variants, with elapsed
times in milliseconds. -/
inductive JudgeOutput where
  | Ac (t : Nat) (input stdout stderr : String)
  | Tle (timelimit : Nat) (input expected : String)
  | Wa (t : Nat) (input expected stdout stderr : String)
  | Re (t : Nat) (input expected stdout stderr : String) (status : ExitStatus)
deriving DecidableEq, Repr

/-- `src/judging/simple.rs` `SimpleOutput`: same four variants, but the
time fields are `Duration`s, modelled as total nanosecond counts. -/
inductive SimpleOutput where
  | Ac (t : Nat) (input stdout stderr : String)
  | Tle (timelimit : Nat) (input expected : String)
  | Wa (t : Nat) (input expected stdout stderr : String)
  | Re (t : Nat) (input expected stdout stderr : String) (status : ExitStatus)
deriving DecidableEq, Repr

/-- The variant tag of an outcome, for comparing the two implementations. -/
inductive Verdict where
  | ac
  | tle
  | wa
  | re
deriving DecidableEq, Repr

def JudgeOutput.verdict : JudgeOutput → Verdict
  | .Ac .. => .ac
  | .Tle .. => .tle
  | .Wa .. => .wa
  | .Re .. => .re

def SimpleOutput.verdict : SimpleOutput → Verdict
  | .Ac .. => .ac
  | .Tle .. => .tle
  | .Wa .. => .wa
  | .Re .. => .re

/-- `src/judge.rs` lines 34-35: the elapsed `Duration` converted to whole
milliseconds, `(1000000000 * t.as_secs() + t.subsec_nanos() + 999999) / 1000000`. -/
def millisOfRaw (r : RawExecution) : Nat :=
  (1000000000 * r.elapsedSecs + r.subsecNanos + 999999) / 1000000

/-- The total elapsed time in nanoseconds (the `Duration` value compared
directly in `src/judging/simple.rs`). -/
def nanosOfRaw (r : RawExecution) : Nat :=
  1000000000 * r.elapsedSecs + r.subsecNanos

/-- `src/judge.rs` `run_program` (lines 27-48): classify one raw execution
result into a `JudgeOutput`.  The child-process interaction (spawn, write
input, wait, read streams) is abstracted into the `RawExecution` argument;
I/O failures on that path are handled at the `judge_one` level. -/
def run_program (c : Case) (r : RawExecution) : JudgeOutput :=
  let input := c.input
  let expected := c.expected
  let timelimit := c.timelimit
  let t := millisOfRaw r
  let stdout := r.stdout
  let stderr := r.stderr
  if timelimit.isSome = true ∧ t > timelimit.getD 0 then
    JudgeOutput.Tle (timelimit.getD 0) input expected
  else if r.status.success = true ∧ (expected.isEmpty = true ∨ expected = stdout) then
    JudgeOutput.Ac t input stdout stderr
  else if r.status.success = true then
    JudgeOutput.Wa t input expected stdout stderr
  else
    JudgeOutput.Re t input expected stdout stderr r.status

/-- Model of `testsuite::SimpleCase` as consumed by `case.values()` in
`src/judging/simple.rs`: the time limit is a `Duration` (nanoseconds). -/
structure SimpleCase where
  input : String
  expected : String
  timelimit : Option Nat
deriving DecidableEq, Repr

/-- `src/judging/simple.rs` `run` (lines 32-53): same classification chain,
but the raw `Duration` is compared against the `Duration` time limit. -/
def simple_run (c : SimpleCase) (r : RawExecution) : SimpleOutput :=
  let input := c.input
  let expected := c.expected
  let timelimit := c.timelimit
  let t := nanosOfRaw r
  let stdout := r.stdout
  let stderr := r.stderr
  if timelimit.isSome = true ∧ t > timelimit.getD 0 then
    SimpleOutput.Tle (timelimit.getD 0) input expected
  else if r.status.success = true ∧ (expected.isEmpty = true ∨ expected = stdout) then
    SimpleOutput.Ac t input stdout stderr
  else if r.status.success = true then
    SimpleOutput.Wa t input expected stdout stderr
  else
    SimpleOutput.Re t input expected stdout stderr r.status

theorem millisOfRaw_le_iff (r : RawExecution) (k : Nat) :
    millisOfRaw r ≤ k ↔ nanosOfRaw r ≤ 1000000 * k := by
  unfold millisOfRaw nanosOfRaw
  rw [← Nat.lt_succ_iff, Nat.div_lt_iff_lt_mul (by norm_num : (0:ℕ) < 1000000)]
  omega

theorem millisOfRaw_gt_iff (r : RawExecution) (k : Nat) :
    millisOfRaw r > k ↔ nanosOfRaw r > 1000000 * k := by
  have h := millisOfRaw_le_iff r k
  omega

theorem run_program_verdict_tle_iff (c : Case) (r : RawExecution) :
    (run_program c r).verdict = .tle ↔
      (c.timelimit.isSome = true ∧ millisOfRaw r > c.timelimit.getD 0) := by
  simp only [run_program]
  split_ifs with h1 h2 h3 <;> simp [JudgeOutput.verdict, h1]

theorem run_program_eq_tle_iff (c : Case) (r : RawExecution) (L : Nat) (i e : String) :
    run_program c r = .Tle L i e ↔
      c.timelimit = some L ∧ i = c.input ∧ e = c.expected ∧ millisOfRaw r > L := by
  simp only [run_program]
  split_ifs with h1 h2 h3
  · obtain ⟨hs, hgt⟩ := h1
    obtain ⟨tl, htl⟩ := Option.isSome_iff_exists.mp hs
    simp only [htl, Option.getD_some] at hgt ⊢
    simp only [JudgeOutput.Tle.injEq, Option.some.injEq]
    constructor
    · rintro ⟨rfl, rfl, rfl⟩
      exact ⟨rfl, rfl, rfl, hgt⟩
    · rintro ⟨rfl, rfl, rfl, _⟩
      exact ⟨rfl, rfl, rfl⟩
  all_goals
    simp only [reduceCtorEq, false_iff]
    rintro ⟨htl, -, -, hgt⟩
    exact h1 ⟨by simp [htl], by simp [htl, hgt]⟩

/-- C1: whenever a run completes within its configured time limit (or there is
no limit), `run_program` classifies it as `Ac` iff the exit status is a success
and the expected string is empty or equals the captured stdout; as `Wa` iff the
exit status is a success and the non-empty expected string differs from stdout;
and otherwise (non-success exit status) as `Re` carrying that exit status. -/
theorem run_program_classification (c : Case) (r : RawExecution)
    (h : c.timelimit.isSome = true → millisOfRaw r ≤ c.timelimit.getD 0) :
    ((run_program c r).verdict = .ac ↔
        r.status.success = true ∧ (c.expected.isEmpty = true ∨ c.expected = r.stdout))
    ∧ ((run_program c r).verdict = .wa ↔
        r.status.success = true ∧ c.expected.isEmpty = false ∧ c.expected ≠ r.stdout)
    ∧ ((run_program c r).verdict = .re ↔ r.status.success = false)
    ∧ (r.status.success = false →
        run_program c r
          = .Re (millisOfRaw r) c.input c.expected r.stdout r.stderr r.status) := by
  have hno : ¬(c.timelimit.isSome = true ∧ millisOfRaw r > c.timelimit.getD 0) := by
    rintro ⟨ha, hb⟩
    exact absurd (h ha) (by omega)
  simp only [run_program, if_neg hno]
  split_ifs with h2 h3
  · refine ⟨by simp [JudgeOutput.verdict, h2], ?_, ?_, ?_⟩
    · simp only [JudgeOutput.verdict, reduceCtorEq, false_iff]
      rintro ⟨-, hne, hne2⟩
      rcases h2.2 with he | he
      · simp [he] at hne
      · exact hne2 he
    · simp only [JudgeOutput.verdict, reduceCtorEq, false_iff]
      simp [h2.1]
    · intro hfail
      rw [h2.1] at hfail
      cases hfail
  · refine ⟨by simp only [JudgeOutput.verdict, reduceCtorEq, false_iff]; exact h2, ?_, ?_, ?_⟩
    · simp only [JudgeOutput.verdict, true_iff]
      refine ⟨h3, ?_, ?_⟩
      · rcases hempty : c.expected.isEmpty with _ | _
        · rfl
        · exact absurd ⟨h3, Or.inl hempty⟩ h2
      · intro heq
        exact h2 ⟨h3, Or.inr heq⟩
    · simp only [JudgeOutput.verdict, reduceCtorEq, false_iff]
      simp [h3]
    · intro hfail
      rw [h3] at hfail
      cases hfail
  · have hfail : r.status.success = false := by
      rcases hs : r.status.success with _ | _
      · rfl
      · exact absurd hs h3
    refine ⟨?_, ?_, by simp [JudgeOutput.verdict, hfail], fun _ => rfl⟩
    · simp only [JudgeOutput.verdict, reduceCtorEq, false_iff]
      rintro ⟨hs, -⟩
      exact h3 hs
    · simp only [JudgeOutput.verdict, reduceCtorEq, false_iff]
      rintro ⟨hs, -⟩
      exact h3 hs

theorem run_program_classification_witness :
    (run_program ⟨"x", "y\n", some 2000⟩
        ⟨⟨true, ""⟩, 0, 5, "y\n", "w"⟩).verdict = Verdict.ac :=
  (run_program_classification ⟨"x", "y\n", some 2000⟩
      ⟨⟨true, ""⟩, 0, 5, "y\n", "w"⟩ (by decide)).1.mpr ⟨rfl, Or.inr rfl⟩

/-- C9: the two judging implementations classify identically.  For every case
and raw execution result, `src/judge.rs`'s `run_program`, which compares
ceiling-rounded milliseconds against a millisecond limit, produces the same
verdict variant as `src/judging/simple.rs`'s `run`, which compares the raw
`Duration` against the same limit expressed in nanoseconds. -/
theorem judging_impls_agree (input expected : String) (tl : Option Nat) (r : RawExecution) :
    (run_program ⟨input, expected, tl⟩ r).verdict
      = (simple_run ⟨input, expected, tl.map fun L => L * 1000000⟩ r).verdict := by
  cases tl with
  | none =>
      simp only [run_program, simple_run, Option.map_none', Option.isSome_none,
        Bool.false_eq_true, false_and, if_false]
      split_ifs <;> rfl
  | some L =>
      simp only [run_program, simple_run, Option.map_some', Option.isSome_some,
        Option.getD_some, true_and]
      by_cases h : millisOfRaw r > L
      · rw [if_pos h, if_pos (by have := millisOfRaw_gt_iff r L; omega)]
        rfl
      · rw [if_neg h,
          if_neg (show ¬nanosOfRaw r > L * 1000000 by
            have := millisOfRaw_gt_iff r L; omega)]
        split_ifs <;> rfl

/-- C10: the elapsed time `run_program` attaches to outcomes and compares
against the limit is the wall-clock duration in whole milliseconds rounded
up (the ceiling of nanoseconds over one million): it is the least `k` with
`nanos ≤ 1000000 * k`, one nanosecond past a whole millisecond counts as
the next millisecond, and the limit comparison is strict (`elapsed > limit`). -/
theorem elapsed_millis_ceiling (input expected : String) (r : RawExecution) (L : Nat) :
    (∀ k, millisOfRaw r ≤ k ↔ nanosOfRaw r ≤ 1000000 * k)
    ∧ (∀ q, nanosOfRaw r = 1000000 * q + 1 → millisOfRaw r = q + 1)
    ∧ (nanosOfRaw r % 1000000 = 0 → millisOfRaw r = nanosOfRaw r / 1000000)
    ∧ ((run_program ⟨input, expected, some L⟩ r).verdict = .tle ↔ millisOfRaw r > L) := by
  refine ⟨millisOfRaw_le_iff r, ?_, ?_, ?_⟩
  · intro q hq
    have h1 := millisOfRaw_le_iff r q
    have h2 := millisOfRaw_le_iff r (q + 1)
    omega
  · intro hmod
    have h1 := millisOfRaw_le_iff r (nanosOfRaw r / 1000000)
    have h2 := millisOfRaw_le_iff r (nanosOfRaw r / 1000000 - 1)
    have h3 := Nat.div_mul_le_self (nanosOfRaw r) 1000000
    have h4 : 1000000 * (nanosOfRaw r / 1000000) = nanosOfRaw r := by
      omega
    omega
  · rw [run_program_verdict_tle_iff]
    simp

theorem elapsed_millis_ceiling_witness :
    (run_program ⟨"i", "e", some 1⟩ ⟨⟨true, ""⟩, 0, 1000001, "", ""⟩).verdict
      = Verdict.tle :=
  (elapsed_millis_ceiling "i" "e" ⟨⟨true, ""⟩, 0, 1000001, "", ""⟩ 1).2.2.2.mpr
    (by decide)

/-- The message a worker thread sends on the one-shot channel: the
`io::Result<JudgeOutput>` computed by `run_program` (either a classified
outcome or a propagated I/O error from spawn/write/read). -/
inductive WorkerMsg where
  | ok (o : JudgeOutput)
  | ioErr
deriving DecidableEq, Repr

/-- What `rx.recv_timeout(..)` can return: a message received within the
bound, expiry of the bound (`RecvTimeoutError::Timeout`), or a dropped
sender (`RecvTimeoutError::Disconnected`). -/
inductive TimedRecv where
  | received (m : WorkerMsg)
  | timeout
  | disconnected
deriving DecidableEq, Repr

/-- What `rx.recv()` can return: a message, or a dropped sender (`RecvError`). -/
inductive UntimedRecv where
  | received (m : WorkerMsg)
  | disconnected
deriving DecidableEq, Repr

/-- The error taxonomy surfaced by the judge (`error::JudgeErrorKind` plus
propagated channel/IO failures). -/
inductive JudgeError where
  | ioError
  | recvError
  | compilationFailure (status : ExitStatus)
  | testFailed (n : Nat)
deriving DecidableEq, Repr

/-- `src/judge.rs` `judge_one` (lines 50-60): the orchestrator spawns a worker
running `run_program` and waits on the channel.  `rt` is what the bounded
`rx.recv_timeout(Duration::from_millis(timelimit + 50))` observes (used when a
time limit is configured); `ru` is what the unbounded `rx.recv()` observes
(used otherwise).  `unwrap_or_else(|_| Ok(Tle(..)))` maps both channel errors
of the bounded wait to a `Tle` verdict; the trailing `?`s propagate the
worker's I/O error and, in the unbounded branch, the `RecvError`. -/
def judge_one (c : Case) (rt : TimedRecv) (ru : UntimedRecv) :
    Except JudgeError JudgeOutput :=
  match c.timelimit with
  | some timelimit =>
    match rt with
    | .received (.ok o) => .ok o
    | .received .ioErr => .error .ioError
    | .timeout => .ok (.Tle timelimit c.input c.expected)
    | .disconnected => .ok (.Tle timelimit c.input c.expected)
  | none =>
    match ru with
    | .received (.ok o) => .ok o
    | .received .ioErr => .error .ioError
    | .disconnected => .error .recvError

/-- The bound passed to the channel receive in `judge_one`:
`Duration::from_millis(timelimit + 50)` when a time limit is configured,
no bound (`rx.recv()`) otherwise. -/
def judge_one_wait_bound (c : Case) : Option Nat :=
  match c.timelimit with
  | some timelimit => some (timelimit + 50)
  | none => none

/-- C2 counterexample: the claim says a `Tle` outcome arises only because the
measured elapsed time exceeded the limit or because the bounded wait expired.
But when the worker dies without sending (channel disconnected before any
result, so no elapsed time exceeded anything and the wait did not expire),
`judge_one` still produces `Tle`: `unwrap_or_else(|_| ..)` also catches
`RecvTimeoutError::Disconnected`. -/
theorem tle_cause_cex :
    judge_one ⟨"i", "e", some 100⟩ TimedRecv.disconnected UntimedRecv.disconnected
        = .ok (JudgeOutput.Tle 100 "i" "e")
    ∧ TimedRecv.disconnected ≠ TimedRecv.timeout := by
  exact ⟨rfl, by decide⟩

/-- C2 (amended): a `Tle` outcome is produced only when the case has a
configured time limit; its limit field equals the configured limit and its
payload is the case's input and expected text; and it arises because the
measured elapsed time exceeded the limit, or because the bounded channel wait
expired, or because the channel disconnected during the bounded wait.
Moreover the elapsed-time check takes precedence over exit-status and output
classification.  The hypotheses state that any message actually received on
the channel is the worker's `run_program` result. -/
theorem tle_production (c : Case) (rt : TimedRecv) (ru : UntimedRecv) (r : RawExecution)
    (hrt : ∀ m, rt = TimedRecv.received m → m = WorkerMsg.ok (run_program c r))
    (hru : ∀ m, ru = UntimedRecv.received m → m = WorkerMsg.ok (run_program c r)) :
    (∀ L i e, judge_one c rt ru = .ok (JudgeOutput.Tle L i e) →
        c.timelimit = some L ∧ i = c.input ∧ e = c.expected
        ∧ (millisOfRaw r > L ∨ rt = TimedRecv.timeout ∨ rt = TimedRecv.disconnected))
    ∧ (∀ L, c.timelimit = some L → millisOfRaw r > L →
        run_program c r = JudgeOutput.Tle L c.input c.expected) := by
  constructor
  · intro L i e hj
    cases htl : c.timelimit with
    | none =>
        simp only [judge_one, htl] at hj
        cases ru with
        | received m =>
            have hm := hru m rfl
            subst hm
            simp only [Except.ok.injEq] at hj
            have := (run_program_eq_tle_iff c r L i e).mp hj
            rw [htl] at this
            cases this.1
        | disconnected => cases hj
    | some tl =>
        simp only [judge_one, htl] at hj
        cases rt with
        | received m =>
            have hm := hrt m rfl
            subst hm
            simp only [Except.ok.injEq] at hj
            have h2 := (run_program_eq_tle_iff c r L i e).mp hj
            exact ⟨htl ▸ h2.1, h2.2.1, h2.2.2.1, Or.inl h2.2.2.2⟩
        | timeout =>
            simp only [Except.ok.injEq, JudgeOutput.Tle.injEq] at hj
            obtain ⟨rfl, rfl, rfl⟩ := hj
            exact ⟨rfl, rfl, rfl, Or.inr (Or.inl rfl)⟩
        | disconnected =>
            simp only [Except.ok.injEq, JudgeOutput.Tle.injEq] at hj
            obtain ⟨rfl, rfl, rfl⟩ := hj
            exact ⟨rfl, rfl, rfl, Or.inr (Or.inr rfl)⟩
  · intro L hL hgt
    exact (run_program_eq_tle_iff c r L c.input c.expected).mpr ⟨hL, rfl, rfl, hgt⟩

theorem tle_production_witness :
    (Case.mk "i" "e" (some 10)).timelimit = some 10
    ∧ "i" = (Case.mk "i" "e" (some 10)).input
    ∧ "e" = (Case.mk "i" "e" (some 10)).expected
    ∧ (millisOfRaw ⟨⟨true, ""⟩, 0, 20000000, "out", ""⟩ > 10
        ∨ TimedRecv.received (WorkerMsg.ok
            (run_program ⟨"i", "e", some 10⟩ ⟨⟨true, ""⟩, 0, 20000000, "out", ""⟩))
          = TimedRecv.timeout
        ∨ TimedRecv.received (WorkerMsg.ok
            (run_program ⟨"i", "e", some 10⟩ ⟨⟨true, ""⟩, 0, 20000000, "out", ""⟩))
          = TimedRecv.disconnected) :=
  (tle_production ⟨"i", "e", some 10⟩
      (TimedRecv.received (WorkerMsg.ok
        (run_program ⟨"i", "e", some 10⟩ ⟨⟨true, ""⟩, 0, 20000000, "out", ""⟩)))
      UntimedRecv.disconnected
      ⟨⟨true, ""⟩, 0, 20000000, "out", ""⟩
      (fun m h => by cases h; rfl)
      (fun m h => nomatch h)).1 10 "i" "e" rfl

/-- C3: for a case with time limit `L`, the orchestrator's channel wait is
bounded by `L + 50` milliseconds, and if nothing arrives in that window it
synthesizes `Tle L input expected` itself; for a case without a time limit
the wait is unbounded, and any outcome it returns is exactly the worker's
result received on the channel. -/
theorem bounded_wait_behavior (c : Case) (rt : TimedRecv) (ru : UntimedRecv) :
    (∀ L, c.timelimit = some L →
        judge_one_wait_bound c = some (L + 50)
        ∧ judge_one c TimedRecv.timeout ru = .ok (JudgeOutput.Tle L c.input c.expected))
    ∧ (c.timelimit = none →
        judge_one_wait_bound c = none
        ∧ ∀ o, judge_one c rt ru = .ok o → ru = UntimedRecv.received (WorkerMsg.ok o)) := by
  constructor
  · intro L hL
    exact ⟨by simp [judge_one_wait_bound, hL], by simp [judge_one, hL]⟩
  · intro hnone
    refine ⟨by simp [judge_one_wait_bound, hnone], ?_⟩
    intro o hj
    simp only [judge_one, hnone] at hj
    cases ru with
    | received m =>
        cases m with
        | ok o2 =>
            simp only [Except.ok.injEq] at hj
            rw [hj]
        | ioErr => cases hj
    | disconnected => cases hj

theorem bounded_wait_behavior_witness :
    judge_one ⟨"a", "b", some 100⟩ TimedRecv.timeout UntimedRecv.disconnected
      = .ok (JudgeOutput.Tle 100 "a" "b") :=
  ((bounded_wait_behavior ⟨"a", "b", some 100⟩ TimedRecv.timeout
      UntimedRecv.disconnected).1 100 rfl).2

/-- C4 counterexample: the claim says a disconnected channel (the worker died
without sending) is always propagated as a fatal error and never converted
into a verdict.  But for a case with a time limit, `judge_one` converts the
disconnection into a `Tle` verdict. -/
theorem disconnect_not_fatal_cex :
    judge_one ⟨"p", "q", some 100⟩ TimedRecv.disconnected
        (UntimedRecv.received (WorkerMsg.ok (JudgeOutput.Ac 1 "p" "o" "")))
      = .ok (JudgeOutput.Tle 100 "p" "q") := rfl

/-- C4 (amended): for a case without a time limit, a disconnected channel is
propagated as a fatal `recvError`; for a case with a time limit, a
disconnected channel is instead converted into a `Tle` verdict. -/
theorem disconnect_handling (c : Case) (rt : TimedRecv) (ru : UntimedRecv) :
    (c.timelimit = none →
        judge_one c rt UntimedRecv.disconnected = .error JudgeError.recvError)
    ∧ (∀ L, c.timelimit = some L →
        judge_one c TimedRecv.disconnected ru
          = .ok (JudgeOutput.Tle L c.input c.expected)) := by
  constructor
  · intro h
    simp [judge_one, h]
  · intro L h
    simp [judge_one, h]

theorem disconnect_handling_witness :
    judge_one ⟨"x", "y", none⟩ TimedRecv.timeout UntimedRecv.disconnected
      = .error JudgeError.recvError :=
  (disconnect_handling ⟨"x", "y", none⟩ TimedRecv.timeout
      UntimedRecv.disconnected).1 rfl

/-- One line written to the error stream by the detail reporters. -/
inductive Line where
  | head (s : String)
  | emptyMark
  | omittedB (n : Nat)
  | omittedKB (n : Nat)
  | omittedMB (n : Nat)
  | content (s : String)
deriving DecidableEq, Repr

/-- Modelled from the spec: `util::eprintln_trimming_last_newline` and
`util::eprintln_trimming_trailing_newline` live in the `util` module root,
which is not among the provided sources.  Per the spec (§4.5) they print
the content "with a single trailing newline trimmed". -/
def trimming_last_newline (s : String) : String :=
  if s.endsWith "\n" then s.dropRight 1 else s

/-- `src/judge.rs` `eprint_section` (lines 256-263): always prints the
heading; an empty body prints `EMPTY`, otherwise the full content with a
single trailing newline trimmed.  No size-based elision. -/
def judge_eprint_section (head s : String) : List Line :=
  if s.isEmpty = true then [.head head, .emptyMark]
  else [.head head, .content (trimming_last_newline s)]

/-- `src/judge.rs` `eprint_section_unless_empty` (lines 265-270). -/
def judge_eprint_section_unless_empty (head s : String) : List Line :=
  if s.isEmpty = true then []
  else [.head head, .content (trimming_last_newline s)]

/-- `src/judge.rs` `eprint_details` (lines 255-295). -/
def judge_eprint_details : JudgeOutput → List Line
  | .Ac _ input stdout stderr =>
      judge_eprint_section "input" input ++ judge_eprint_section "stdout" stdout
        ++ judge_eprint_section_unless_empty "stderr" stderr
  | .Tle _ input expected =>
      judge_eprint_section "input" input
        ++ judge_eprint_section_unless_empty "expected" expected
  | .Wa _ input expected stdout stderr =>
      judge_eprint_section "input" input ++ judge_eprint_section "expected" expected
        ++ judge_eprint_section "stdout" stdout
        ++ judge_eprint_section_unless_empty "stderr" stderr
  | .Re _ input expected stdout stderr _ =>
      judge_eprint_section "input" input
        ++ judge_eprint_section_unless_empty "expected" expected
        ++ judge_eprint_section_unless_empty "stdout" stdout
        ++ judge_eprint_section "stderr" stderr

/-- `src/judging/simple.rs` line 107. -/
def THRESHOLD_TO_OMIT : Nat := 1024

/-- `src/judging/simple.rs` `eprint_size` (lines 109-119). -/
def simple_eprint_size (numBytes : Nat) : Line :=
  if numBytes > 10 * 1024 * 1024 then .omittedMB (numBytes / (1024 * 1024))
  else if numBytes > 10 * 1024 then .omittedKB (numBytes / 1024)
  else .omittedB numBytes

/-- `src/judging/simple.rs` `eprint_section` (lines 121-131):
`num_bytes` is `content.as_bytes().len()`. -/
def simple_eprint_section (head content : String) : List Line :=
  let numBytes := content.utf8ByteSize
  if numBytes = 0 then [.head head, .emptyMark]
  else if numBytes > THRESHOLD_TO_OMIT then [.head head, simple_eprint_size numBytes]
  else [.head head, .content (trimming_last_newline content)]

/-- `src/judging/simple.rs` `eprint_section_unless_empty` (lines 133-141):
note that in the omission branch no heading line is printed. -/
def simple_eprint_section_unless_empty (head content : String) : List Line :=
  let numBytes := content.utf8ByteSize
  if numBytes > THRESHOLD_TO_OMIT then [simple_eprint_size numBytes]
  else if numBytes > 0 then [.head head, .content (trimming_last_newline content)]
  else []

/-- `src/judging/simple.rs` `eprint_details` (lines 106-166). -/
def simple_eprint_details : SimpleOutput → List Line
  | .Ac _ input stdout stderr =>
      simple_eprint_section "input" input ++ simple_eprint_section "stdout" stdout
        ++ simple_eprint_section_unless_empty "stderr" stderr
  | .Tle _ input expected =>
      simple_eprint_section "input" input
        ++ simple_eprint_section_unless_empty "expected" expected
  | .Wa _ input expected stdout stderr =>
      simple_eprint_section "input" input ++ simple_eprint_section "expected" expected
        ++ simple_eprint_section "stdout" stdout
        ++ simple_eprint_section_unless_empty "stderr" stderr
  | .Re _ input expected stdout stderr _ =>
      simple_eprint_section "input" input
        ++ simple_eprint_section_unless_empty "expected" expected
        ++ simple_eprint_section_unless_empty "stdout" stdout
        ++ simple_eprint_section "stderr" stderr

set_option maxRecDepth 40000 in
/-- C5 counterexample: the claim says content is elided only when its size
exceeds 10 KB and that any non-empty content of at most 10 KB is printed in
full.  But `src/judging/simple.rs` elides above `THRESHOLD_TO_OMIT = 1024`
bytes: a 1025-byte section (well under 10 KB) is shown as `OMITTED (1025B)`,
a bytes-form annotation the claim does not even admit. -/
theorem elision_threshold_cex :
    simple_eprint_section "input" (String.mk (List.replicate 1025 'a'))
        = [Line.head "input", Line.omittedB 1025]
    ∧ (String.mk (List.replicate 1025 'a')).utf8ByteSize = 1025
    ∧ 1025 ≤ 10 * 1024 := by
  refine ⟨?_, ?_, by norm_num⟩ <;> decide

/-- C5 (amended): in the `src/judging/simple.rs` reporter, a labeled section's
content is elided exactly when its byte size exceeds 1024 bytes, the
annotation being in MB form above 10 MB, in KB form above 10 KB, and in bytes
form otherwise; zero-size content is shown as `EMPTY`; non-empty content of at
most 1024 bytes is printed in full with a single trailing newline trimmed.
In the `src/judge.rs` reporter, content is never elided: zero-size content is
shown as `EMPTY` and any non-empty content is printed in full with a single
trailing newline trimmed. -/
theorem eprint_section_characterization (head content : String) :
    (content.utf8ByteSize = 0 →
        simple_eprint_section head content = [.head head, .emptyMark])
    ∧ (0 < content.utf8ByteSize → content.utf8ByteSize ≤ 1024 →
        simple_eprint_section head content
          = [.head head, .content (trimming_last_newline content)])
    ∧ (1024 < content.utf8ByteSize → content.utf8ByteSize ≤ 10 * 1024 →
        simple_eprint_section head content
          = [.head head, .omittedB content.utf8ByteSize])
    ∧ (10 * 1024 < content.utf8ByteSize → content.utf8ByteSize ≤ 10 * 1024 * 1024 →
        simple_eprint_section head content
          = [.head head, .omittedKB (content.utf8ByteSize / 1024)])
    ∧ (10 * 1024 * 1024 < content.utf8ByteSize →
        simple_eprint_section head content
          = [.head head, .omittedMB (content.utf8ByteSize / (1024 * 1024))])
    ∧ (content.isEmpty = true →
        judge_eprint_section head content = [.head head, .emptyMark])
    ∧ (content.isEmpty = false →
        judge_eprint_section head content
          = [.head head, .content (trimming_last_newline content)]) := by
  refine ⟨?_, ?_, ?_, ?_, ?_, ?_, ?_⟩
  · intro h0
    simp [simple_eprint_section, h0]
  · intro h0 h1
    rw [simple_eprint_section]
    rw [if_neg (by omega), if_neg (by simp only [THRESHOLD_TO_OMIT]; omega)]
  · intro h0 h1
    rw [simple_eprint_section]
    rw [if_neg (by omega), if_pos (by simp only [THRESHOLD_TO_OMIT]; omega)]
    rw [simple_eprint_size, if_neg (by omega), if_neg (by omega)]
  · intro h0 h1
    rw [simple_eprint_section]
    rw [if_neg (by omega), if_pos (by simp only [THRESHOLD_TO_OMIT]; omega)]
    rw [simple_eprint_size, if_neg (by omega), if_pos (by omega)]
  · intro h0
    rw [simple_eprint_section]
    rw [if_neg (by omega), if_pos (by simp only [THRESHOLD_TO_OMIT]; omega)]
    rw [simple_eprint_size, if_pos (by omega)]
  · intro h0
    simp [judge_eprint_section, h0]
  · intro h0
    simp [judge_eprint_section, h0]

theorem eprint_section_characterization_witness :
    simple_eprint_section "stdout" "ok\n"
      = [Line.head "stdout", Line.content (trimming_last_newline "ok\n")] :=
  (eprint_section_characterization "stdout" "ok\n").2.1 (by decide) (by decide)

/-- `src/judge.rs` `JudgeOutput::success` (lines 236-241). -/
def JudgeOutput.success : JudgeOutput → Bool
  | .Ac .. => true
  | _ => false

/-- `src/judge.rs` lines 77-85: run the cases strictly in order, aborting on
the first fatal error (the `collect::<JudgeResult<Vec<_>>>()`). -/
def judgeCases (run1 : Case → Except JudgeError JudgeOutput) :
    List Case → Except JudgeError (List JudgeOutput)
  | [] => .ok []
  | c :: cs =>
    match run1 c with
    | .error e => .error e
    | .ok o =>
      match judgeCases run1 cs with
      | .error e => .error e
      | .ok os => .ok (o :: os)

/-- `src/judge.rs` line 87: `outputs.iter().filter(|o| !o.success()).count()`. -/
def num_failures (outputs : List JudgeOutput) : Nat :=
  (outputs.filter fun o => !o.success).length

/-- `format!("{}", n).len()`, the digit count used for title alignment. -/
def numDigits (n : Nat) : Nat := (toString n).length

/-- `src/judge.rs` `Display for JudgeOutput` (lines 224-233). -/
def JudgeOutput.displayString : JudgeOutput → String
  | .Ac t .. => "AC (" ++ toString t ++ "ms)"
  | .Tle t .. => "TLE (" ++ toString t ++ "ms)"
  | .Wa t .. => "WA (" ++ toString t ++ "ms)"
  | .Re t _ _ _ _ status => "RE (" ++ status.display ++ ", " ++ toString t ++ "ms)"

/-- `src/judge.rs` `eprint_title` (lines 249-253): alignment padding, then
`i+1/n `, then the output's display string. -/
def eprint_title_line (i n : Nat) (o : JudgeOutput) : String :=
  String.mk (List.replicate (numDigits n - numDigits (i + 1)) ' ')
    ++ toString (i + 1) ++ "/" ++ toString n ++ " " ++ o.displayString

/-- One per-case block written to the error stream by the failure pass:
the title line, then the detail lines. -/
structure ReportEntry where
  title : String
  details : List Line
deriving DecidableEq, Repr

/-- `src/judge.rs` lines 92-96: the failure pass dumps, for every case in
order, the title followed by the full details. -/
def failure_dump (outputs : List JudgeOutput) (n : Nat) : List ReportEntry :=
  outputs.enum.map fun p => ⟨eprint_title_line p.1 n p.2, judge_eprint_details p.2⟩

/-- `src/judge.rs` lines 87-98: aggregate the outcomes into the error-stream
dump (empty on success) and the overall result. -/
def finishJudge (outputs : List JudgeOutput) :
    List ReportEntry × Except JudgeError Unit :=
  let numFailures := num_failures outputs
  if numFailures = 0 then ([], .ok ())
  else (failure_dump outputs outputs.length, .error (.testFailed numFailures))

/-- The suite portion of `src/judge.rs` `judge` after loading: run all cases,
then aggregate. -/
def judgeSuite (cases : List Case)
    (run1 : Case → Except JudgeError JudgeOutput) : Except JudgeError Unit :=
  match judgeCases run1 cases with
  | .error e => .error e
  | .ok outputs => (finishJudge outputs).2

/-- The environment of one compilation attempt: the modification timestamps
(present exactly when `src_and_bin` is configured and both `metadata()` and
`modified()` calls succeed for source and binary) and the exit status the
compile command produces if actually run. -/
structure CompilationSetup where
  src_and_bin : Option (Option (Nat × Nat))
  status : ExitStatus
deriving DecidableEq, Repr

/-- `src/judge.rs` `execute_as_compilation_command` (lines 161-190): skip when
the binary is strictly newer than the source; otherwise run the command and
fail with `CompilationFailure(status)` on a nonzero exit. -/
def execute_as_compilation_command (comp : CompilationSetup) :
    Except JudgeError Unit :=
  match comp.src_and_bin with
  | some (some (t1, t2)) =>
    if t1 < t2 then .ok ()
    else if comp.status.success = true then .ok ()
    else .error (.compilationFailure comp.status)
  | _ =>
    if comp.status.success = true then .ok ()
    else .error (.compilationFailure comp.status)

/-- Whether the staleness check (lines 163-169) short-circuits the build. -/
def staleSkip (comp : CompilationSetup) : Bool :=
  match comp.src_and_bin with
  | some (some (t1, t2)) => decide (t1 < t2)
  | _ => false

/-- `src/judge.rs` `judge` (lines 21-98): optional compilation gate, then
`Cases::load` (its result is the `loaded` argument), then the suite. -/
def judge (compilation : Option CompilationSetup)
    (loaded : Except JudgeError (List Case))
    (run1 : Case → Except JudgeError JudgeOutput) : Except JudgeError Unit :=
  match compilation with
  | some comp =>
    match execute_as_compilation_command comp with
    | .error e => .error e
    | .ok _ =>
      match loaded with
      | .error e => .error e
      | .ok cases => judgeSuite cases run1
  | none =>
    match loaded with
    | .error e => .error e
    | .ok cases => judgeSuite cases run1

theorem judgeCases_eq_map (run1 : Case → Except JudgeError JudgeOutput)
    (outcome : Case → JudgeOutput) (h : ∀ c, run1 c = .ok (outcome c)) :
    ∀ cases, judgeCases run1 cases = .ok (cases.map outcome)
  | [] => rfl
  | c :: cs => by
      simp [judgeCases, h c, judgeCases_eq_map run1 outcome h cs]

theorem success_iff_verdict_ac (o : JudgeOutput) :
    o.success = true ↔ o.verdict = Verdict.ac := by
  cases o <;> simp [JudgeOutput.success, JudgeOutput.verdict]

/-- C6: on a complete run (every case yields an outcome), the report is
exactly one outcome per case in CaseSet order, the failure count equals the
number of outcomes whose verdict is not `ac`, and the run succeeds iff that
count is zero, failing with `testFailed` carrying the count otherwise. -/
theorem judge_report_aggregation (cases : List Case)
    (run1 : Case → Except JudgeError JudgeOutput)
    (outcome : Case → JudgeOutput)
    (h : ∀ c, run1 c = .ok (outcome c)) :
    judgeCases run1 cases = .ok (cases.map outcome)
    ∧ (cases.map outcome).length = cases.length
    ∧ (∀ i : Nat, (cases.map outcome)[i]? = (cases[i]?).map outcome)
    ∧ num_failures (cases.map outcome)
        = ((cases.map outcome).filter fun o => decide (o.verdict ≠ Verdict.ac)).length
    ∧ (judgeSuite cases run1 = .ok () ↔ num_failures (cases.map outcome) = 0)
    ∧ (num_failures (cases.map outcome) ≠ 0 →
        judgeSuite cases run1
          = .error (.testFailed (num_failures (cases.map outcome)))) := by
  have hjc := judgeCases_eq_map run1 outcome h cases
  have hfun : (fun o : JudgeOutput => !o.success)
      = fun o => decide (o.verdict ≠ Verdict.ac) := by
    funext o
    cases o <;> rfl
  refine ⟨hjc, cases.length_map outcome, fun i => List.getElem?_map .., ?_, ?_, ?_⟩
  · rw [num_failures, hfun]
  · rw [judgeSuite, hjc]
    by_cases hn : num_failures (cases.map outcome) = 0
    · simp [finishJudge, hn]
    · simp [finishJudge, hn]
  · intro hn
    rw [judgeSuite, hjc]
    simp [finishJudge, hn]

theorem judge_report_aggregation_witness :
    judgeCases (fun c => Except.ok (JudgeOutput.Ac 1 c.input "o" "")) [⟨"a", "b", none⟩]
      = .ok [JudgeOutput.Ac 1 "a" "o" ""] :=
  (judge_report_aggregation [⟨"a", "b", none⟩]
      (fun c => Except.ok (JudgeOutput.Ac 1 c.input "o" ""))
      (fun c => JudgeOutput.Ac 1 c.input "o" "") (fun _ => rfl)).1

/-- C7: when a compilation command is configured, actually runs (no staleness
skip) and exits with a nonzero status, the whole judge run fails with
`compilationFailure` carrying that status, for every possible case set and
runner — so no test case is attempted (the case set is not even loaded); on a
zero exit, judging proceeds exactly as if no compilation were configured. -/
theorem compilation_gate (comp : CompilationSetup) (h : staleSkip comp = false) :
    (comp.status.success = false →
        ∀ loaded run1, judge (some comp) loaded run1
          = .error (.compilationFailure comp.status))
    ∧ (comp.status.success = true →
        ∀ loaded run1, judge (some comp) loaded run1 = judge none loaded run1) := by
  constructor
  · intro hfail loaded run1
    have hc : execute_as_compilation_command comp
        = .error (.compilationFailure comp.status) := by
      rw [execute_as_compilation_command]
      cases hsb : comp.src_and_bin with
      | none => simp [hfail]
      | some mt =>
        cases mt with
        | none => simp [hfail]
        | some p =>
          obtain ⟨t1, t2⟩ := p
          have hns : ¬t1 < t2 := by
            have := h
            rw [staleSkip, hsb] at this
            simpa using this
          simp [hns, hfail]
    simp [judge, hc]
  · intro hok loaded run1
    have hc : execute_as_compilation_command comp = .ok () := by
      rw [execute_as_compilation_command]
      cases hsb : comp.src_and_bin with
      | none => simp [hok]
      | some mt =>
        cases mt with
        | none => simp [hok]
        | some p =>
          obtain ⟨t1, t2⟩ := p
          simp [hok]
    simp [judge, hc]

theorem compilation_gate_witness :
    judge (some ⟨none, ⟨false, "exit code: 1"⟩⟩) (Except.ok [])
        (fun _ => Except.error JudgeError.ioError)
      = .error (.compilationFailure ⟨false, "exit code: 1"⟩) :=
  (compilation_gate ⟨none, ⟨false, "exit code: 1"⟩⟩ rfl).1 rfl
    (Except.ok []) (fun _ => Except.error JudgeError.ioError)

/-- C8: whenever the failure count of a complete run is nonzero, the run
returns `testFailed` carrying that count, and the error-stream dump produced
by the failure pass has exactly one entry per case of the report, in order —
every case, not only the failing ones — each entry being that case's title
line followed by its full detail sections. -/
theorem failure_dump_covers_all_cases (outputs : List JudgeOutput)
    (h : num_failures outputs ≠ 0) :
    (finishJudge outputs).2 = .error (.testFailed (num_failures outputs))
    ∧ (finishJudge outputs).1 = failure_dump outputs outputs.length
    ∧ (failure_dump outputs outputs.length).length = outputs.length
    ∧ ∀ i : Nat, (failure_dump outputs outputs.length)[i]?
        = (outputs[i]?).map fun o =>
            ⟨eprint_title_line i outputs.length o, judge_eprint_details o⟩ := by
  refine ⟨by simp [finishJudge, h], by simp [finishJudge, h], ?_, ?_⟩
  · rw [failure_dump, List.length_map, List.enum_length]
  · intro i
    rw [failure_dump, List.getElem?_map, List.getElem?_enum]
    cases outputs[i]? with
    | none => rfl
    | some o => rfl

theorem failure_dump_covers_all_cases_witness :
    (finishJudge [JudgeOutput.Wa 3 "i" "e" "o" ""]).2
      = .error (.testFailed (num_failures [JudgeOutput.Wa 3 "i" "e" "o" ""])) :=
  (failure_dump_covers_all_cases [JudgeOutput.Wa 3 "i" "e" "o" ""] (by decide)).1
